import Mathlib

/-!
Verification of the multi-chain event indexing subsystem of the
universal-payment-gateway repository: a shallow embedding of the
event processors (`PushChainIndexer`, `EthereumIndexer`), the backfill
tick loops, and the `IndexerManager`, together with proofs and
refutations of the specified properties.

Amount strings are compared by the source through JavaScript
`parseFloat`, i.e. IEEE-754 binary64 values.  We model this exactly:
`Frac` is a nonnegative rational given as numerator/denominator over
`Nat` (so all arithmetic is kernel-computable), `parseDec` parses the
unsigned decimal-literal strings that occur as amounts (BigInt
`toString()` output and Postgres `decimal` columns), and `jsFloat`
rounds a `Frac` to the nearest binary64-representable value
(round-to-nearest, ties-to-even) for values in the normal range,
which covers every amount representable in the schema
(`decimal(18,8)`) and every uint256 token amount.
-/

/-- Nonnegative fraction `num / den`; `den` is kept positive by all
constructors used in this development.  Values are compared by
cross-multiplication, so unnormalized representations are fine. -/
structure Frac where
  num : Nat
  den : Nat
  deriving Repr, DecidableEq

namespace Frac

def ofNat (n : Nat) : Frac := ⟨n, 1⟩

/-- Value-level comparison `a ≤ b` by cross-multiplication. -/
def le (a b : Frac) : Bool := a.num * b.den ≤ b.num * a.den

/-- Value-level strict comparison `a < b`. -/
def lt (a b : Frac) : Bool := a.num * b.den < b.num * a.den

/-- Value-level equality `a = b` (as rational numbers). -/
def eqv (a b : Frac) : Bool := a.num * b.den = b.num * a.den

/-- Exact rational addition. -/
def add (a b : Frac) : Frac := ⟨a.num * b.den + b.num * a.den, a.den * b.den⟩

end Frac

/-- Round `n / d` to the nearest integer, ties to even
(IEEE-754 default rounding applied to a nonnegative rational). -/
def rne (n d : Nat) : Nat :=
  let q := n / d
  let r := n % d
  if 2 * r < d then q
  else if d < 2 * r then q + 1
  else if q % 2 = 0 then q else q + 1

/-- Doubling `v` until `2^52 ≤ v`, returning the scaled numerator and
the number of doublings.  Fuel-based so that the kernel can evaluate it. -/
def scaleUp : Nat → Frac → Frac × Nat
  | 0, v => (v, 0)
  | fuel + 1, v =>
    if v.num < 4503599627370496 * v.den then
      let p := scaleUp fuel ⟨v.num * 2, v.den⟩
      (p.1, p.2 + 1)
    else (v, 0)

/-- Halving `v` until `v < 2^53`, returning the scaled value and the
number of halvings. -/
def scaleDown : Nat → Frac → Frac × Nat
  | 0, v => (v, 0)
  | fuel + 1, v =>
    if 9007199254740992 * v.den ≤ v.num then
      let p := scaleDown fuel ⟨v.num, v.den * 2⟩
      (p.1, p.2 + 1)
    else (v, 0)

/-- Model of the value JavaScript obtains for a nonnegative decimal
number: the nearest IEEE-754 binary64 value (round-to-nearest,
ties-to-even), expressed again as an exact fraction.  Valid for
values in the binary64 normal range, which contains all amounts the
indexer handles. -/
def jsFloat (v : Frac) : Frac :=
  if v.num = 0 then ⟨0, 1⟩
  else if v.num < 4503599627370496 * v.den then
    let p := scaleUp 1200 v
    ⟨rne p.1.num p.1.den, 2 ^ p.2⟩
  else
    let p := scaleDown 1200 v
    ⟨rne p.1.num p.1.den * 2 ^ p.2, 1⟩

/-- Numeric value of a decimal digit, or `none`. -/
def digitVal (c : Char) : Option Nat :=
  if '0' ≤ c ∧ c ≤ '9' then some (c.toNat - 48) else none

/-- Value of a digit string read most-significant first; `none` on a
non-digit.  The empty list yields `some acc`. -/
def digitsVal : List Char → Nat → Option Nat
  | [], acc => some acc
  | c :: cs, acc =>
    match digitVal c with
    | some d => digitsVal cs (acc * 10 + d)
    | none => none

/-- Splitting a character list at the first dot. -/
def splitDot : List Char → List Char × Option (List Char)
  | [] => ([], none)
  | c :: cs =>
    if c = '.' then ([], some cs)
    else
      let p := splitDot cs
      (c :: p.1, p.2)

/-- Parse of the unsigned decimal literals that occur as amount
strings in the indexer (`digits` or `digits.digits`, the forms
produced by `BigInt.toString()` and by Postgres `decimal` columns).
Other inputs — which JavaScript `parseFloat` would turn into `NaN`
or a longest-prefix value — are outside the modelled domain and
yield `none`; every comparison involving `none` is `false`, matching
`NaN` comparison semantics. -/
def parseDec (s : String) : Option Frac :=
  match splitDot s.data with
  | (intPart, none) =>
    match intPart with
    | [] => none
    | _ => (digitsVal intPart 0).map Frac.ofNat
  | (intPart, some fracPart) =>
    match intPart with
    | [] => none
    | _ =>
      match digitsVal intPart 0, digitsVal fracPart 0 with
      | some ip, some fp =>
        if fracPart.contains '.' then none
        else some ⟨ip * 10 ^ fracPart.length + fp, 10 ^ fracPart.length⟩
      | _, _ => none

/-- Model of the source comparison
`parseFloat(a) >= parseFloat(b)`: both strings are parsed, rounded
to binary64, and compared; unparseable input gives `false` (`NaN`). -/
def jsGe (a b : String) : Bool :=
  match parseDec a, parseDec b with
  | some x, some y => Frac.le (jsFloat y) (jsFloat x)
  | _, _ => false

/-- Model of the fee total
`(parseFloat(platformFee) + parseFloat(networkFee)).toString()` as it
lands in the `decimal` column: the binary64 sum of the two binary64
values (JavaScript `+` rounds the exact sum to binary64).  Unparseable
input is outside the modelled domain and mapped to `0`. -/
def feeTotal (p n : String) : Frac :=
  match parseDec p, parseDec n with
  | some a, some b => jsFloat (Frac.add (jsFloat a) (jsFloat b))
  | _, _ => ⟨0, 1⟩

example : parseDec "1" = some ⟨1, 1⟩ := by decide
example : parseDec "100.00000000" = some ⟨10000000000, 100000000⟩ := by decide
example : jsFloat ⟨1, 1⟩ = ⟨4503599627370496, 4503599627370496⟩ := by decide
example : jsGe "100.00000000" "100.00000000" = true := by decide
example : jsGe "99.99999999" "100.00000000" = false := by decide
example : jsGe "0.99999999999999999999" "1" = true := by decide
example : Frac.eqv (feeTotal "10000000000000000001" "1") ⟨10000000000000000000, 1⟩ = true := by
  decide

/-!
Data model: the rows of the external store that the Event Processor
reads and writes (schema `invoices`, `payments`, `transactions`).
`decimal` columns are modelled by the exact rational value the column
holds after Postgres parses the inserted string (`decVal`); timestamps
by a `Nat` tick `now` supplied to each operation; `jsonb` metadata by
the individual fields the indexer writes.
-/

/-- Value a Postgres `decimal` column holds after parsing the inserted
string; all strings the claims exercise are well-formed decimals. -/
def decVal (s : String) : Frac := (parseDec s).getD ⟨0, 1⟩

/-- Row of the `invoices` table (fields the indexing core touches). -/
structure Invoice where
  id : String
  appId : String
  amount : String
  currency : String
  status : String
  paidAt : Option Nat
  updatedAt : Nat
  deriving Repr, DecidableEq

/-- Row of the `payments` table. -/
structure PaymentRow where
  invoiceId : String
  externalChain : String
  txHash : String
  payer : String
  amount : Frac
  currency : String
  status : String
  blockNumber : Nat
  blockHash : String
  gasUsed : Frac
  gasFee : Frac
  recordedAt : Nat
  confirmedAt : Option Nat
  metaType : Option String
  metaChainId : Option Nat
  metaSource : String
  deriving Repr, DecidableEq

/-- Row of the `transactions` ledger table. -/
structure TransactionRow where
  appId : String
  type : String
  chain : String
  txHash : String
  amount : Frac
  currency : String
  fee : Option Frac
  status : String
  blockNumber : Nat
  fromAddress : Option String
  toAddress : Option String
  metaInvoiceId : Option String
  metaType : Option String
  metaChainId : Option Nat
  metaPlatformFee : Option Frac
  metaNetworkFee : Option Frac
  metaSource : Option String
  createdAt : Nat
  deriving Repr, DecidableEq

/-- State of the shared data store. -/
structure DB where
  invoices : List Invoice
  payments : List PaymentRow
  transactions : List TransactionRow
  deriving Repr, DecidableEq

/-- Result of `provider.getTransactionReceipt` /
`provider.getTransaction`, as far as the enrichment step uses it:
the receipt gas and, when the transaction lookup also succeeds, its
gas price. -/
structure Receipt where
  gasUsed : Nat
  txGasPrice : Option Nat
  deriving Repr, DecidableEq

/-- Drizzle `update ... set {status: "paid", paidAt, updatedAt} where
eq(invoices.id, invoiceId)` applied to one row. -/
def setPaid (invoiceId : String) (now : Nat) (inv : Invoice) : Invoice :=
  if inv.id == invoiceId then
    { inv with status := "paid", paidAt := some now, updatedAt := now }
  else inv

namespace PushChainIndexer

/-- Chain identifier string the push-chain indexer writes into every
row (`"push-chain"` in the source). -/
def chainName : String := "push-chain"

/-- Address `PUSH_CHAIN_CONFIG.contracts.payment` the source stores
as to/from address; the config object in `pushchain/client` has no
`contracts` field, so the resulting value is irrelevant to every
claim and modelled as an unspecified constant. -/
def paymentContractAddress : String := ""

/-- PaymentEvent of `push-chain-indexer.ts`. -/
structure PaymentEvent where
  invoiceId : String
  payer : String
  amount : String
  currency : String
  txHash : String
  blockNumber : Nat
  blockHash : String
  gasUsed : String
  gasFee : String
  deriving Repr, DecidableEq

/-- WithdrawalEvent of `push-chain-indexer.ts`. -/
structure WithdrawalEvent where
  appId : String
  recipient : String
  amount : String
  currency : String
  txHash : String
  blockNumber : Nat
  blockHash : String
  deriving Repr, DecidableEq

/-- Fee event (untyped `any` in the source; fields from use). -/
structure FeeEvent where
  appId : String
  platformFee : String
  networkFee : String
  currency : String
  txHash : String
  blockNumber : Nat
  blockHash : String
  deriving Repr, DecidableEq

/-- Gas used after the receipt-enrichment step of
`processPaymentEvent` (`event.gasUsed = receipt.gasUsed.toString()`
when a receipt is found). -/
def enrichedGasUsed (e : PaymentEvent) (receipt : Option Receipt) : Frac :=
  match receipt with
  | some r => ⟨r.gasUsed, 1⟩
  | none => decVal e.gasUsed

/-- Gas fee after the receipt-enrichment step (`receipt.gasUsed *
tx.gasPrice` when both lookups succeed). -/
def enrichedGasFee (e : PaymentEvent) (receipt : Option Receipt) : Frac :=
  match receipt with
  | some r =>
    match r.txGasPrice with
    | some gp => ⟨r.gasUsed * gp, 1⟩
    | none => decVal e.gasFee
  | none => decVal e.gasFee

/-- Payment row `processPaymentEvent` inserts. -/
def paymentRowOf (e : PaymentEvent) (receipt : Option Receipt) (now : Nat) : PaymentRow :=
  { invoiceId := e.invoiceId
    externalChain := chainName
    txHash := e.txHash
    payer := e.payer
    amount := decVal e.amount
    currency := e.currency
    status := "confirmed"
    blockNumber := e.blockNumber
    blockHash := e.blockHash
    gasUsed := enrichedGasUsed e receipt
    gasFee := enrichedGasFee e receipt
    recordedAt := now
    confirmedAt := some now
    metaType := none
    metaChainId := none
    metaSource := "push-chain-indexer" }

/-- Ledger entry `processPaymentEvent` inserts. -/
def paymentTxRowOf (e : PaymentEvent) (receipt : Option Receipt) (invoice : Invoice)
    (now : Nat) : TransactionRow :=
  { appId := invoice.appId
    type := "payment"
    chain := chainName
    txHash := e.txHash
    amount := decVal e.amount
    currency := e.currency
    fee := some (enrichedGasFee e receipt)
    status := "confirmed"
    blockNumber := e.blockNumber
    fromAddress := some e.payer
    toAddress := some paymentContractAddress
    metaInvoiceId := some e.invoiceId
    metaType := none
    metaChainId := none
    metaPlatformFee := none
    metaNetworkFee := none
    metaSource := none
    createdAt := now }

/-- `PushChainIndexer.processPaymentEvent`: receipt enrichment, then
idempotency lookup by `(txHash, externalChain = "push-chain")`, then
invoice lookup, then payment insert, conditional invoice update
(`parseFloat(event.amount) >= parseFloat(invoice.amount)`), and
transaction insert; the inserted rows are the named literals above. -/
def processPaymentEvent (db : DB) (e : PaymentEvent) (receipt : Option Receipt)
    (now : Nat) : DB :=
  match db.payments.find? (fun p => p.txHash == e.txHash && p.externalChain == chainName) with
  | some _ => db
  | none =>
    match db.invoices.find? (fun inv => inv.id == e.invoiceId) with
    | none => db
    | some invoice =>
      let db1 : DB := { db with payments := db.payments ++ [paymentRowOf e receipt now] }
      let db2 : DB :=
        if jsGe e.amount invoice.amount then
          { db1 with invoices := db1.invoices.map (setPaid e.invoiceId now) }
        else db1
      { db2 with transactions := db2.transactions ++ [paymentTxRowOf e receipt invoice now] }

/-- `PushChainIndexer.processWithdrawalEvent`: unconditionally inserts
a `withdrawal` ledger entry (the source performs no lookup before the
insert, and the schema has no uniqueness constraint on the table). -/
def processWithdrawalEvent (db : DB) (e : WithdrawalEvent) (now : Nat) : DB :=
  { db with transactions := db.transactions ++
      [{ appId := e.appId
         type := "withdrawal"
         chain := chainName
         txHash := e.txHash
         amount := decVal e.amount
         currency := e.currency
         fee := none
         status := "confirmed"
         blockNumber := e.blockNumber
         fromAddress := some paymentContractAddress
         toAddress := some e.recipient
         metaInvoiceId := none
         metaType := none
         metaChainId := none
         metaPlatformFee := none
         metaNetworkFee := none
         metaSource := some "push-chain-indexer"
         createdAt := now }] }

/-- `PushChainIndexer.processFeeEvent`: computes
`(parseFloat(platformFee) + parseFloat(networkFee)).toString()` and
unconditionally inserts a `fee` ledger entry carrying that total. -/
def processFeeEvent (db : DB) (e : FeeEvent) (now : Nat) : DB :=
  { db with transactions := db.transactions ++
      [{ appId := e.appId
         type := "fee"
         chain := chainName
         txHash := e.txHash
         amount := feeTotal e.platformFee e.networkFee
         currency := e.currency
         fee := none
         status := "confirmed"
         blockNumber := e.blockNumber
         fromAddress := none
         toAddress := none
         metaInvoiceId := none
         metaType := none
         metaChainId := none
         metaPlatformFee := some (decVal e.platformFee)
         metaNetworkFee := some (decVal e.networkFee)
         metaSource := some "push-chain-indexer"
         createdAt := now }] }

end PushChainIndexer

namespace EthereumIndexer

/-- `EthereumIndexer.getChainName` (also duplicated verbatim in
`IndexerManager`). -/
def getChainName (chainId : Nat) : String :=
  if chainId = 1 then "ethereum"
  else if chainId = 11155111 then "sepolia"
  else if chainId = 137 then "polygon"
  else if chainId = 80001 then "mumbai"
  else if chainId = 42101 then "push-chain"
  else "chain-" ++ toString chainId

/-- CrossChainPaymentEvent of `ethereum-indexer.ts`; also used for
direct payment events there. -/
structure CrossChainPaymentEvent where
  invoiceId : String
  payer : String
  amount : String
  currency : String
  txHash : String
  blockNumber : Nat
  blockHash : String
  chainId : Nat
  gasUsed : String
  gasFee : String
  deriving Repr, DecidableEq

/-- Gas enrichment shared by both Ethereum processors: receipt found
sets `gasUsed`; transaction also found (with a gas price) sets
`gasFee`. -/
def enrichGas (e : CrossChainPaymentEvent) (receipt : Option Receipt) : Frac × Frac :=
  match receipt with
  | some r =>
    match r.txGasPrice with
    | some gp => (⟨r.gasUsed, 1⟩, ⟨r.gasUsed * gp, 1⟩)
    | none => (⟨r.gasUsed, 1⟩, decVal e.gasFee)
  | none => (decVal e.gasUsed, decVal e.gasFee)

/-- Payment row either Ethereum processor inserts — status
`confirmed`, keyed to this indexer chain, tagged by `tag`
(`"cross-chain"` or `"direct"`). -/
def ethPaymentRowOf (e : CrossChainPaymentEvent) (chainId : Nat)
    (receipt : Option Receipt) (now : Nat) (tag : String) : PaymentRow :=
  { invoiceId := e.invoiceId
    externalChain := getChainName chainId
    txHash := e.txHash
    payer := e.payer
    amount := decVal e.amount
    currency := e.currency
    status := "confirmed"
    blockNumber := e.blockNumber
    blockHash := e.blockHash
    gasUsed := (enrichGas e receipt).1
    gasFee := (enrichGas e receipt).2
    recordedAt := now
    confirmedAt := some now
    metaType := some tag
    metaChainId := some chainId
    metaSource := "ethereum-indexer" }

/-- Ledger entry either Ethereum processor inserts; `tag` is
`"cross-chain"` or `"direct"`, the only difference between the two
source literals. -/
def ethTxRowOf (e : CrossChainPaymentEvent) (chainId : Nat) (invoice : Invoice)
    (now : Nat) (tag : String) : TransactionRow :=
  { appId := invoice.appId
    type := "payment"
    chain := getChainName chainId
    txHash := e.txHash
    amount := decVal e.amount
    currency := e.currency
    fee := none
    status := "confirmed"
    blockNumber := e.blockNumber
    fromAddress := some e.payer
    toAddress := some ""
    metaInvoiceId := some e.invoiceId
    metaType := some tag
    metaChainId := some chainId
    metaPlatformFee := none
    metaNetworkFee := none
    metaSource := some "ethereum-indexer"
    createdAt := now }

/-- Body shared verbatim (up to the metadata tag) by
`processCrossChainPaymentEvent` and `processDirectPaymentEvent`:
invoice lookup, idempotency lookup by `(invoiceId, txHash)`, then the
payment and ledger inserts.  Neither processor updates the invoice. -/
def processEthPaymentEvent (db : DB) (e : CrossChainPaymentEvent)
    (chainId : Nat) (receipt : Option Receipt) (now : Nat) (tag : String) : DB :=
  match db.invoices.find? (fun inv => inv.id == e.invoiceId) with
  | none => db
  | some invoice =>
    match db.payments.find? (fun p => p.invoiceId == e.invoiceId && p.txHash == e.txHash) with
    | some _ => db
    | none =>
      { db with
          payments := db.payments ++ [ethPaymentRowOf e chainId receipt now tag]
          transactions := db.transactions ++ [ethTxRowOf e chainId invoice now tag] }

/-- `EthereumIndexer.processCrossChainPaymentEvent`. -/
def processCrossChainPaymentEvent (db : DB) (e : CrossChainPaymentEvent)
    (chainId : Nat) (receipt : Option Receipt) (now : Nat) : DB :=
  processEthPaymentEvent db e chainId receipt now "cross-chain"

/-- `EthereumIndexer.processDirectPaymentEvent`: identical to the
cross-chain variant except for the `direct` metadata tag; in
particular it never updates the invoice row. -/
def processDirectPaymentEvent (db : DB) (e : CrossChainPaymentEvent)
    (chainId : Nat) (receipt : Option Receipt) (now : Nat) : DB :=
  processEthPaymentEvent db e chainId receipt now "direct"

end EthereumIndexer

/-!
Backfill tick loops.  One tick of the `startBlockProcessing` body
of each indexer is modelled as a function of the cursor
(`lastProcessedBlock`), the running flag, and an environment giving
the outcome of each chain-client call: `latest = none` models
`provider.getBlockNumber()` throwing; the range/batch flags model
`queryFilter` throwing for the given range.  A tick returns the new
cursor together with the block ranges whose events were actually
queried and forwarded.
-/

namespace PushChainIndexer

/-- Chain-client outcomes for one push-chain tick.  `rangeOk` covers
the three `queryFilter` calls of `processBlockRange`: the push
indexer has no inner try/catch, so a failure of any of them
propagates to the catch block of the tick. -/
structure TickEnv where
  latest : Option Nat
  rangeOk : Bool
  deriving Repr, DecidableEq

/-- One iteration of `processBlocks` in
`PushChainIndexer.startBlockProcessing`: returns without work when
not running, computes the latest block, processes
`[cursor+1, latest]` in one range, and advances the cursor only when
everything succeeded — any thrown client call reaches the catch
block of the tick and leaves the cursor untouched. -/
def processBlocksTick (cursor : Nat) (running : Bool) (env : TickEnv) :
    Nat × List (Nat × Nat) :=
  if !running then (cursor, [])
  else
    match env.latest with
    | none => (cursor, [])
    | some latest =>
      if latest > cursor then
        if env.rangeOk then (latest, [(cursor + 1, latest)])
        else (cursor, [])
      else (cursor, [])

end PushChainIndexer

namespace EthereumIndexer

/-- Chain-client outcomes for one Ethereum tick: result of
`getBlockNumber`, and per batch-start block whether the
`queryFilter` calls of that `processBlockRange` invocation succeed. -/
structure TickEnv where
  latest : Option Nat
  batchOk : Nat → Bool

/-- Batch loop of `EthereumIndexer.startBlockProcessing`: batches of
10 blocks starting at `i`; each `processBlockRange` call has its own
try/catch, so a failing batch is skipped and the loop continues.
Returns the successfully queried ranges.  Fuel-based recursion
(the loop advances by 10 each step, so `toBlock + 1 - i` bounds the
iteration count). -/
def batchLoop : Nat → Nat → Nat → (Nat → Bool) → List (Nat × Nat)
  | 0, _, _, _ => []
  | fuel + 1, i, toBlock, ok =>
    if i ≤ toBlock then
      (if ok i then [(i, min (i + 9) toBlock)] else []) ++
        batchLoop fuel (i + 10) toBlock ok
    else []

/-- One iteration of `processBlocks` in
`EthereumIndexer.startBlockProcessing`: after a successful
`getBlockNumber`, every batch is attempted (failures swallowed by the
inner try/catch) and the cursor is then advanced to `latest`
unconditionally; only a `getBlockNumber` failure reaches the outer
catch and leaves the cursor unchanged. -/
def processBlocksTick (cursor : Nat) (running : Bool) (env : TickEnv) :
    Nat × List (Nat × Nat) :=
  if !running then (cursor, [])
  else
    match env.latest with
    | none => (cursor, [])
    | some latest =>
      if latest > cursor then
        (latest, batchLoop (latest + 1 - (cursor + 1)) (cursor + 1) latest env.batchOk)
      else (cursor, [])

end EthereumIndexer

/-!
Event-processor step relation: one applied operation of any of the
five processor entry points, used to state invariants over arbitrary
sequences of processed events.
-/

/-- One Event Processor application. -/
inductive Op where
  | pushPayment (e : PushChainIndexer.PaymentEvent) (receipt : Option Receipt) (now : Nat)
  | pushWithdrawal (e : PushChainIndexer.WithdrawalEvent) (now : Nat)
  | pushFee (e : PushChainIndexer.FeeEvent) (now : Nat)
  | ethCrossChain (e : EthereumIndexer.CrossChainPaymentEvent) (chainId : Nat)
      (receipt : Option Receipt) (now : Nat)
  | ethDirect (e : EthereumIndexer.CrossChainPaymentEvent) (chainId : Nat)
      (receipt : Option Receipt) (now : Nat)

/-- Application of one operation to the store. -/
def applyOp (db : DB) : Op → DB
  | .pushPayment e receipt now => PushChainIndexer.processPaymentEvent db e receipt now
  | .pushWithdrawal e now => PushChainIndexer.processWithdrawalEvent db e now
  | .pushFee e now => PushChainIndexer.processFeeEvent db e now
  | .ethCrossChain e chainId receipt now =>
      EthereumIndexer.processCrossChainPaymentEvent db e chainId receipt now
  | .ethDirect e chainId receipt now =>
      EthereumIndexer.processDirectPaymentEvent db e chainId receipt now

/-- Application of a sequence of operations, oldest first. -/
def applyOps (db : DB) (ops : List Op) : DB := ops.foldl applyOp db

/-- Status of the invoice with the given id (first match, as
`findFirst` returns). -/
def invoiceStatus (db : DB) (id : String) : Option String :=
  (db.invoices.find? (fun inv => inv.id == id)).map (fun inv => inv.status)

/-- PaidAt field of the invoice with the given id. -/
def invoicePaidAt (db : DB) (id : String) : Option (Option Nat) :=
  (db.invoices.find? (fun inv => inv.id == id)).map (fun inv => inv.paidAt)

/-- Number of payment rows keyed to `(chain, txHash)`. -/
def countPayments (db : DB) (chain txHash : String) : Nat :=
  db.payments.countP (fun p => p.externalChain == chain && p.txHash == txHash)

/-- Number of ledger entries keyed to `(chain, txHash, type)`. -/
def countTxRows (db : DB) (chain txHash ty : String) : Nat :=
  db.transactions.countP (fun t => t.chain == chain && t.txHash == txHash && t.type == ty)

/-- Payment rows keyed to a chain. -/
def paymentsOn (db : DB) (chain : String) : List PaymentRow :=
  db.payments.filter (fun p => p.externalChain == chain)

/-- Ledger entries keyed to a chain. -/
def txRowsOn (db : DB) (chain : String) : List TransactionRow :=
  db.transactions.filter (fun t => t.chain == chain)

/-!
Indexer Manager.  Watcher lifecycle state is the pair of fields each
indexer class owns (`isRunning`, `lastProcessedBlock`); the outcome of
the `getBlockNumber` call made by `start()` is an `Option Nat`
parameter (`none` models the RPC throwing, in which case `start()`
resets the flag and rethrows).  The manager owns the push-chain
watcher plus one Ethereum watcher per configured chain, keyed by
chain id.
-/

/-- Lifecycle state of one indexer instance. -/
structure IndexerState where
  isRunning : Bool
  lastProcessedBlock : Nat
  deriving Repr, DecidableEq

/-- `start()` of either indexer class: no-op when already running;
otherwise sets the flag, queries the latest block, and positions the
cursor at `Math.max(0, latest - 100)`.  A failing block query resets
the flag and surfaces the error (`false`). -/
def indexerStart (s : IndexerState) (latest : Option Nat) : IndexerState × Bool :=
  if s.isRunning then (s, true)
  else
    match latest with
    | some l => ({ isRunning := true, lastProcessedBlock := l - 100 }, true)
    | none => ({ s with isRunning := false }, false)

/-- `stop()` of either indexer class: idempotent flag reset. -/
def indexerStop (s : IndexerState) : IndexerState :=
  if s.isRunning then { s with isRunning := false } else s

namespace IndexerManager

/-- Environment configuration the manager constructor reads: the four
gateway contract-address variables; the empty string models an unset
variable (both `enabled: !!env` and the `config.contractAddress`
check test non-emptiness). -/
structure EnvConfig where
  ethereumGatewayContract : String
  sepoliaGatewayContract : String
  polygonGatewayContract : String
  mumbaiGatewayContract : String

/-- `IndexerManager.initializeEthereumIndexers`: one Ethereum watcher
per candidate chain (1, 11155111, 137, 80001) whose contract address
is configured; unconfigured chains are silently skipped. -/
def initEthereumIndexers (cfg : EnvConfig) : List (Nat × IndexerState) :=
  [(1, cfg.ethereumGatewayContract), (11155111, cfg.sepoliaGatewayContract),
   (137, cfg.polygonGatewayContract), (80001, cfg.mumbaiGatewayContract)].filterMap
    (fun c => if c.2 ≠ "" then some (c.1, ⟨false, 0⟩) else none)

/-- Manager state: the push-chain watcher, the configured Ethereum
watchers keyed by chain id, and the own running flag of the manager. -/
structure ManagerState where
  push : IndexerState
  eth : List (Nat × IndexerState)
  isRunning : Bool
  deriving Repr, DecidableEq

/-- Manager as constructed at module load. -/
def newManager (cfg : EnvConfig) : ManagerState :=
  { push := ⟨false, 0⟩, eth := initEthereumIndexers cfg, isRunning := false }

/-- Errors the manager surfaces synchronously to its caller. -/
inductive ManagerError where
  | unknownChain (chainId : Nat)
  | startFailed (chainId : Nat)
  deriving Repr, DecidableEq

/-- Latest-block outcomes for the watcher `start()` calls a manager
operation fans out to. -/
structure StartEnv where
  pushLatest : Option Nat
  ethLatest : Nat → Option Nat

/-- `IndexerManager.startAll`: returns immediately when the manager
flag is already set; otherwise sets it and starts every watcher, with
individual failures collected (`Promise.allSettled` + try/catch) and
not propagated. -/
def startAll (m : ManagerState) (env : StartEnv) : ManagerState :=
  if m.isRunning then m
  else
    { push := (indexerStart m.push env.pushLatest).1
      eth := m.eth.map (fun p => (p.1, (indexerStart p.2 (env.ethLatest p.1)).1))
      isRunning := true }

/-- `IndexerManager.stopAll`: returns immediately when the flag is
already clear; otherwise clears it and stops every watcher. -/
def stopAll (m : ManagerState) : ManagerState :=
  if !m.isRunning then m
  else
    { push := indexerStop m.push
      eth := m.eth.map (fun p => (p.1, indexerStop p.2))
      isRunning := false }

/-- `IndexerManager.startIndexer`: chain 42101 starts the push
watcher; any other id is looked up among the configured Ethereum
watchers, and an unconfigured id throws (`UnknownChain`) without
touching any state.  A watcher whose `start()` throws surfaces that
error instead. -/
def startIndexer (m : ManagerState) (chainId : Nat) (env : StartEnv) :
    ManagerState × Option ManagerError :=
  if chainId = 42101 then
    let r := indexerStart m.push env.pushLatest
    ({ m with push := r.1 }, if r.2 then none else some (.startFailed chainId))
  else
    match m.eth.lookup chainId with
    | some s =>
      let r := indexerStart s (env.ethLatest chainId)
      ({ m with eth := m.eth.map (fun p => if p.1 = chainId then (p.1, r.1) else p) },
       if r.2 then none else some (.startFailed chainId))
    | none => (m, some (.unknownChain chainId))

/-- `IndexerManager.stopIndexer`: like `startIndexer`, with `stop()`
(which cannot fail) in place of `start()`. -/
def stopIndexer (m : ManagerState) (chainId : Nat) :
    ManagerState × Option ManagerError :=
  if chainId = 42101 then
    ({ m with push := indexerStop m.push }, none)
  else
    match m.eth.lookup chainId with
    | some s =>
      ({ m with eth := m.eth.map (fun p => if p.1 = chainId then (p.1, indexerStop s) else p) },
       none)
    | none => (m, some (.unknownChain chainId))

end IndexerManager

/-!
Helper lemmas.
-/

theorem setPaid_id (iid : String) (now : Nat) (inv : Invoice) :
    (setPaid iid now inv).id = inv.id := by
  unfold setPaid; split <;> rfl

theorem setPaid_status (iid : String) (now : Nat) (inv : Invoice) :
    (setPaid iid now inv).status = if inv.id == iid then "paid" else inv.status := by
  unfold setPaid; split <;> simp_all

theorem find?_map_setPaid (l : List Invoice) (iid i : String) (now : Nat) :
    (l.map (setPaid iid now)).find? (fun v => v.id == i)
      = (l.find? (fun v => v.id == i)).map (setPaid iid now) := by
  induction l with
  | nil => rfl
  | cons hd tl ih =>
    by_cases hc : hd.id == i
    · simp [List.find?_cons, setPaid_id, hc]
    · simp [List.find?_cons, setPaid_id, hc, ih]

/-!
Claim theorems.
-/

/-- C10: once `startAll()` has set the running flag of the manager — which
it does no matter how many watcher starts fail — every further
`startAll()` call is a no-op on the whole manager state until
`stopAll()` clears the flag. -/
theorem startAll_second_call_noop :
    (∀ (m : IndexerManager.ManagerState) (env : IndexerManager.StartEnv),
        m.isRunning = true → IndexerManager.startAll m env = m) ∧
    (∀ (m : IndexerManager.ManagerState) (env : IndexerManager.StartEnv),
        (IndexerManager.startAll m env).isRunning = true) ∧
    (∀ m : IndexerManager.ManagerState,
        m.isRunning = true → (IndexerManager.stopAll m).isRunning = false) := by
  refine ⟨?_, ?_, ?_⟩
  · intro m env h
    simp [IndexerManager.startAll, h]
  · intro m env
    by_cases h : m.isRunning <;> simp [IndexerManager.startAll, h]
  · intro m h
    simp [IndexerManager.stopAll, h]

/-- Witness for C10 at a concrete started manager. -/
theorem startAll_second_call_noop_witness :
    IndexerManager.startAll ⟨⟨true, 7⟩, [(1, ⟨true, 5⟩)], true⟩
        ⟨some 10, fun _ => some 10⟩
      = ⟨⟨true, 7⟩, [(1, ⟨true, 5⟩)], true⟩ :=
  startAll_second_call_noop.1 _ _ rfl

/-- C9: targeting a chain id with no configured watcher (42101 is the
push chain; anything absent from the Ethereum watcher map is
unconfigured) makes `startIndexer`/`stopIndexer` fail with
`UnknownChain` and leave the manager state untouched; and chain
999999 is unconfigured for every possible environment
configuration. -/
theorem startIndexer_unknown_chain :
    (∀ (m : IndexerManager.ManagerState) (chainId : Nat) (env : IndexerManager.StartEnv),
        chainId ≠ 42101 → m.eth.lookup chainId = none →
        IndexerManager.startIndexer m chainId env
            = (m, some (.unknownChain chainId)) ∧
        IndexerManager.stopIndexer m chainId
            = (m, some (.unknownChain chainId))) ∧
    (∀ cfg : IndexerManager.EnvConfig,
        (IndexerManager.newManager cfg).eth.lookup 999999 = none) := by
  constructor
  · intro m chainId env hne hl
    constructor
    · simp [IndexerManager.startIndexer, hne, hl]
    · simp [IndexerManager.stopIndexer, hne, hl]
  · intro cfg
    by_cases h1 : cfg.ethereumGatewayContract = "" <;>
      by_cases h2 : cfg.sepoliaGatewayContract = "" <;>
        by_cases h3 : cfg.polygonGatewayContract = "" <;>
          by_cases h4 : cfg.mumbaiGatewayContract = "" <;>
            simp [IndexerManager.newManager, IndexerManager.initEthereumIndexers,
              h1, h2, h3, h4, List.lookup]

/-- Witness for C9: chain 999999 on a fully configured manager. -/
theorem startIndexer_unknown_chain_witness :
    IndexerManager.startIndexer
        (IndexerManager.newManager ⟨"0xa", "0xb", "0xc", "0xd"⟩) 999999
        ⟨none, fun _ => none⟩
      = (IndexerManager.newManager ⟨"0xa", "0xb", "0xc", "0xd"⟩,
         some (.unknownChain 999999)) :=
  (startIndexer_unknown_chain.1 _ 999999 _ (by decide)
      (startIndexer_unknown_chain.2 ⟨"0xa", "0xb", "0xc", "0xd"⟩)).1

/-- C5 (amended): across any sequence of backfill ticks both cursors
are non-decreasing, and a failed `getBlockNumber` call leaves either
cursor unchanged; in the push-chain indexer a failed range query also
leaves the cursor unchanged (the failed range is retried next tick),
but the Ethereum indexer swallows batch-query failures, so only its
`getBlockNumber` outcome protects the cursor. -/
theorem backfill_cursor_monotone :
    (∀ (c : Nat) (r : Bool) (env : PushChainIndexer.TickEnv),
        c ≤ (PushChainIndexer.processBlocksTick c r env).1) ∧
    (∀ (c : Nat) (r : Bool) (env : PushChainIndexer.TickEnv),
        env.latest = none → (PushChainIndexer.processBlocksTick c r env).1 = c) ∧
    (∀ (c : Nat) (r : Bool) (env : PushChainIndexer.TickEnv),
        env.rangeOk = false → (PushChainIndexer.processBlocksTick c r env).1 = c) ∧
    (∀ (c : Nat) (r : Bool) (env : EthereumIndexer.TickEnv),
        c ≤ (EthereumIndexer.processBlocksTick c r env).1) ∧
    (∀ (c : Nat) (r : Bool) (env : EthereumIndexer.TickEnv),
        env.latest = none → (EthereumIndexer.processBlocksTick c r env).1 = c) := by
  refine ⟨?_, ?_, ?_, ?_, ?_⟩
  · intro c r env
    by_cases hr : r <;> simp [PushChainIndexer.processBlocksTick, hr]
    cases henv : env.latest with
    | none => simp
    | some latest => dsimp only; split_ifs <;> omega
  · intro c r env h
    by_cases hr : r <;> simp [PushChainIndexer.processBlocksTick, hr, h]
  · intro c r env h
    by_cases hr : r <;> simp [PushChainIndexer.processBlocksTick, hr]
    cases henv : env.latest with
    | none => simp
    | some latest => dsimp only; simp [h]
  · intro c r env
    by_cases hr : r <;> simp [EthereumIndexer.processBlocksTick, hr]
    cases henv : env.latest with
    | none => simp
    | some latest => dsimp only; split_ifs <;> omega
  · intro c r env h
    by_cases hr : r <;> simp [EthereumIndexer.processBlocksTick, hr, h]

/-- Witness for C5 at concrete ticks: a successful push tick advances
0 → 5, and a failed push range query keeps the cursor at 0. -/
theorem backfill_cursor_monotone_witness :
    (PushChainIndexer.processBlocksTick 0 true ⟨some 5, false⟩).1 = 0 ∧
    0 ≤ (EthereumIndexer.processBlocksTick 0 true ⟨some 5, fun _ => true⟩).1 :=
  ⟨backfill_cursor_monotone.2.2.1 0 true ⟨some 5, false⟩ rfl,
   backfill_cursor_monotone.2.2.2.1 0 true ⟨some 5, fun _ => true⟩⟩

/-- C5 counterexample: an Ethereum tick whose only batch query fails
(a chain-client call failure) still advances the cursor from 0 to 5
and forwards no events, so the failed range [1,5] is skipped, not
retried — the claim that such a tick leaves the cursor unchanged is
false. -/
theorem backfill_cursor_counterexample :
    EthereumIndexer.processBlocksTick 0 true ⟨some 5, fun _ => false⟩ = (5, []) ∧
    (5 : Nat) ≠ 0 := by
  constructor
  · rfl
  · decide

/-- C6 (amended): `processWithdrawalEvent` and `processFeeEvent`
perform no idempotency lookup and the `transactions` table carries no
uniqueness constraint, so every observation of the event appends one
more ledger entry of its type for the same `(chain, txHash, type)`
key. -/
theorem withdrawal_fee_insert_every_time :
    (∀ (db : DB) (e : PushChainIndexer.WithdrawalEvent) (now : Nat),
        countTxRows (PushChainIndexer.processWithdrawalEvent db e now)
            PushChainIndexer.chainName e.txHash "withdrawal"
          = countTxRows db PushChainIndexer.chainName e.txHash "withdrawal" + 1) ∧
    (∀ (db : DB) (e : PushChainIndexer.FeeEvent) (now : Nat),
        countTxRows (PushChainIndexer.processFeeEvent db e now)
            PushChainIndexer.chainName e.txHash "fee"
          = countTxRows db PushChainIndexer.chainName e.txHash "fee" + 1) := by
  constructor
  · intro db e now
    simp [PushChainIndexer.processWithdrawalEvent, countTxRows, List.countP_append]
  · intro db e now
    simp [PushChainIndexer.processFeeEvent, countTxRows, List.countP_append]

/-- C6 counterexample: the same WithdrawalExecuted observation applied
twice yields two `withdrawal` ledger entries for the same
`(push-chain, 0xdef)` key — the claimed at-most-one uniqueness is
false. -/
theorem withdrawal_dedup_counterexample :
    countTxRows
        (PushChainIndexer.processWithdrawalEvent
          (PushChainIndexer.processWithdrawalEvent ⟨[], [], []⟩
            ⟨"app-1", "0xrecipient", "5", "USDC", "0xdef", 10, "0xblockdef"⟩ 1)
          ⟨"app-1", "0xrecipient", "5", "USDC", "0xdef", 10, "0xblockdef"⟩ 2)
        "push-chain" "0xdef" "withdrawal" = 2 := by
  decide

namespace PushChainIndexer

theorem processPaymentEvent_already (db : DB) (e : PaymentEvent)
    (receipt : Option Receipt) (now : Nat) (p : PaymentRow)
    (h : db.payments.find? (fun q => q.txHash == e.txHash && q.externalChain == chainName)
        = some p) :
    processPaymentEvent db e receipt now = db := by
  unfold processPaymentEvent
  simp [h]

theorem processPaymentEvent_no_invoice (db : DB) (e : PaymentEvent)
    (receipt : Option Receipt) (now : Nat)
    (hdedup : db.payments.find?
        (fun q => q.txHash == e.txHash && q.externalChain == chainName) = none)
    (hinv : db.invoices.find? (fun v => v.id == e.invoiceId) = none) :
    processPaymentEvent db e receipt now = db := by
  unfold processPaymentEvent
  simp [hdedup, hinv]

theorem processPaymentEvent_shape (db : DB) (e : PaymentEvent)
    (receipt : Option Receipt) (now : Nat) (inv : Invoice)
    (hdedup : db.payments.find?
        (fun q => q.txHash == e.txHash && q.externalChain == chainName) = none)
    (hinv : db.invoices.find? (fun v => v.id == e.invoiceId) = some inv) :
    processPaymentEvent db e receipt now =
      { invoices :=
          if jsGe e.amount inv.amount then db.invoices.map (setPaid e.invoiceId now)
          else db.invoices
        payments := db.payments ++ [paymentRowOf e receipt now]
        transactions := db.transactions ++ [paymentTxRowOf e receipt inv now] } := by
  unfold processPaymentEvent
  simp only [hdedup, hinv]
  by_cases hge : jsGe e.amount inv.amount <;> simp [hge]

end PushChainIndexer

namespace EthereumIndexer

theorem processEthPaymentEvent_no_invoice (db : DB) (e : CrossChainPaymentEvent)
    (chainId : Nat) (receipt : Option Receipt) (now : Nat) (tag : String)
    (hinv : db.invoices.find? (fun v => v.id == e.invoiceId) = none) :
    processEthPaymentEvent db e chainId receipt now tag = db := by
  unfold processEthPaymentEvent
  simp [hinv]

theorem processEthPaymentEvent_already (db : DB) (e : CrossChainPaymentEvent)
    (chainId : Nat) (receipt : Option Receipt) (now : Nat) (tag : String)
    (inv : Invoice) (p : PaymentRow)
    (hinv : db.invoices.find? (fun v => v.id == e.invoiceId) = some inv)
    (h : db.payments.find? (fun q => q.invoiceId == e.invoiceId && q.txHash == e.txHash)
        = some p) :
    processEthPaymentEvent db e chainId receipt now tag = db := by
  unfold processEthPaymentEvent
  simp [hinv, h]

theorem processEthPaymentEvent_shape (db : DB) (e : CrossChainPaymentEvent)
    (chainId : Nat) (receipt : Option Receipt) (now : Nat) (tag : String) (inv : Invoice)
    (hinv : db.invoices.find? (fun v => v.id == e.invoiceId) = some inv)
    (hdedup : db.payments.find?
        (fun q => q.invoiceId == e.invoiceId && q.txHash == e.txHash) = none) :
    processEthPaymentEvent db e chainId receipt now tag =
      { invoices := db.invoices
        payments := db.payments ++ [ethPaymentRowOf e chainId receipt now tag]
        transactions := db.transactions ++ [ethTxRowOf e chainId inv now tag] } := by
  unfold processEthPaymentEvent
  simp [hinv, hdedup]

end EthereumIndexer

/-- C1: applying the Event Processor twice to the same valid
PaymentReceived event — its invoice exists, and its transaction hash
is fresh, as for any first-time on-chain event — leaves exactly one
Payment row and exactly one `payment`-type Transaction row keyed to
the `(chain, txHash)` of the event, in the push-chain processor and in the
Ethereum direct-payment processor alike (both delivery paths invoke
these same functions, with any receipt outcome and any timing). -/
theorem payment_event_processing_idempotent :
    (∀ (db : DB) (e : PushChainIndexer.PaymentEvent)
        (r1 r2 : Option Receipt) (n1 n2 : Nat),
        (db.invoices.find? (fun v => v.id == e.invoiceId)).isSome →
        (∀ p ∈ db.payments, p.txHash ≠ e.txHash) →
        (∀ t ∈ db.transactions, ¬(t.txHash = e.txHash ∧ t.type = "payment")) →
        countPayments
            (PushChainIndexer.processPaymentEvent
              (PushChainIndexer.processPaymentEvent db e r1 n1) e r2 n2)
            PushChainIndexer.chainName e.txHash = 1 ∧
        countTxRows
            (PushChainIndexer.processPaymentEvent
              (PushChainIndexer.processPaymentEvent db e r1 n1) e r2 n2)
            PushChainIndexer.chainName e.txHash "payment" = 1) ∧
    (∀ (db : DB) (e : EthereumIndexer.CrossChainPaymentEvent) (chainId : Nat)
        (r1 r2 : Option Receipt) (n1 n2 : Nat),
        (db.invoices.find? (fun v => v.id == e.invoiceId)).isSome →
        (∀ p ∈ db.payments, p.txHash ≠ e.txHash) →
        (∀ t ∈ db.transactions, ¬(t.txHash = e.txHash ∧ t.type = "payment")) →
        countPayments
            (EthereumIndexer.processDirectPaymentEvent
              (EthereumIndexer.processDirectPaymentEvent db e chainId r1 n1) e chainId r2 n2)
            (EthereumIndexer.getChainName chainId) e.txHash = 1 ∧
        countTxRows
            (EthereumIndexer.processDirectPaymentEvent
              (EthereumIndexer.processDirectPaymentEvent db e chainId r1 n1) e chainId r2 n2)
            (EthereumIndexer.getChainName chainId) e.txHash "payment" = 1) := by
  constructor
  · intro db e r1 r2 n1 n2 hinvS hp ht
    obtain ⟨inv, hfind⟩ := Option.isSome_iff_exists.mp hinvS
    have hdedup : db.payments.find?
        (fun q => q.txHash == e.txHash && q.externalChain == PushChainIndexer.chainName)
          = none := by
      rw [List.find?_eq_none]
      intro p hmem
      simp only [Bool.and_eq_true, beq_iff_eq, not_and]
      intro hx
      exact absurd hx (hp p hmem)
    rw [PushChainIndexer.processPaymentEvent_shape db e r1 n1 inv hdedup hfind]
    have hdedup2 :
        (db.payments ++ [PushChainIndexer.paymentRowOf e r1 n1]).find?
          (fun q => q.txHash == e.txHash && q.externalChain == PushChainIndexer.chainName)
            = some (PushChainIndexer.paymentRowOf e r1 n1) := by
      rw [List.find?_append, hdedup]
      simp [PushChainIndexer.paymentRowOf]
    rw [PushChainIndexer.processPaymentEvent_already _ _ r2 n2 _ hdedup2]
    have hp0 : db.payments.countP
        (fun p => p.externalChain == PushChainIndexer.chainName && p.txHash == e.txHash)
          = 0 := by
      rw [List.countP_eq_zero]
      intro p hmem
      simp only [Bool.and_eq_true, beq_iff_eq, not_and]
      intro _ hx
      exact absurd hx (hp p hmem)
    have ht0 : db.transactions.countP
        (fun t => t.chain == PushChainIndexer.chainName && t.txHash == e.txHash
          && t.type == "payment") = 0 := by
      rw [List.countP_eq_zero]
      intro t hmem
      simp only [Bool.and_eq_true, beq_iff_eq, not_and, and_imp]
      intro _ hx hy
      exact absurd ⟨hx, hy⟩ (ht t hmem)
    constructor
    · simp [countPayments, List.countP_append, hp0, PushChainIndexer.paymentRowOf]
    · simp [countTxRows, List.countP_append, ht0, PushChainIndexer.paymentTxRowOf]
  · intro db e chainId r1 r2 n1 n2 hinvS hp ht
    obtain ⟨inv, hfind⟩ := Option.isSome_iff_exists.mp hinvS
    have hdedup : db.payments.find?
        (fun q => q.invoiceId == e.invoiceId && q.txHash == e.txHash) = none := by
      rw [List.find?_eq_none]
      intro p hmem
      simp only [Bool.and_eq_true, beq_iff_eq, not_and]
      intro _ hx
      exact absurd hx (hp p hmem)
    simp only [EthereumIndexer.processDirectPaymentEvent]
    rw [EthereumIndexer.processEthPaymentEvent_shape db e chainId r1 n1 _ inv hfind hdedup]
    have hdedup2 :
        (db.payments ++ [EthereumIndexer.ethPaymentRowOf e chainId r1 n1 "direct"]).find?
          (fun q => q.invoiceId == e.invoiceId && q.txHash == e.txHash)
            = some (EthereumIndexer.ethPaymentRowOf e chainId r1 n1 "direct") := by
      rw [List.find?_append, hdedup]
      simp [EthereumIndexer.ethPaymentRowOf]
    rw [EthereumIndexer.processEthPaymentEvent_already
          { invoices := db.invoices
            payments := db.payments ++ [EthereumIndexer.ethPaymentRowOf e chainId r1 n1 "direct"]
            transactions :=
              db.transactions ++ [EthereumIndexer.ethTxRowOf e chainId inv n1 "direct"] }
          e chainId r2 n2 "direct" inv _ hfind hdedup2]
    have hp0 : db.payments.countP
        (fun p => p.externalChain == EthereumIndexer.getChainName chainId
          && p.txHash == e.txHash) = 0 := by
      rw [List.countP_eq_zero]
      intro p hmem
      simp only [Bool.and_eq_true, beq_iff_eq, not_and]
      intro _ hx
      exact absurd hx (hp p hmem)
    have ht0 : db.transactions.countP
        (fun t => t.chain == EthereumIndexer.getChainName chainId && t.txHash == e.txHash
          && t.type == "payment") = 0 := by
      rw [List.countP_eq_zero]
      intro t hmem
      simp only [Bool.and_eq_true, beq_iff_eq, not_and, and_imp]
      intro _ hx hy
      exact absurd ⟨hx, hy⟩ (ht t hmem)
    constructor
    · simp [countPayments, List.countP_append, hp0, EthereumIndexer.ethPaymentRowOf]
    · simp [countTxRows, List.countP_append, ht0, EthereumIndexer.ethTxRowOf]

/-- Witness for C1: the concrete scenario of the spec — invoice of
100.00000000 USDC paid by a 100.00000000 event delivered twice —
on both processors. -/
theorem payment_event_processing_idempotent_witness :
    (countPayments
        (PushChainIndexer.processPaymentEvent
          (PushChainIndexer.processPaymentEvent
            ⟨[⟨"inv-1", "app-1", "100.00000000", "USDC", "pending", none, 0⟩], [], []⟩
            ⟨"inv-1", "0xpayer", "100.00000000", "USDC", "0xabc", 50, "0xbh", "0", "0"⟩
            none 1)
          ⟨"inv-1", "0xpayer", "100.00000000", "USDC", "0xabc", 50, "0xbh", "0", "0"⟩
          none 6)
        PushChainIndexer.chainName "0xabc" = 1 ∧
      countTxRows
        (PushChainIndexer.processPaymentEvent
          (PushChainIndexer.processPaymentEvent
            ⟨[⟨"inv-1", "app-1", "100.00000000", "USDC", "pending", none, 0⟩], [], []⟩
            ⟨"inv-1", "0xpayer", "100.00000000", "USDC", "0xabc", 50, "0xbh", "0", "0"⟩
            none 1)
          ⟨"inv-1", "0xpayer", "100.00000000", "USDC", "0xabc", 50, "0xbh", "0", "0"⟩
          none 6)
        PushChainIndexer.chainName "0xabc" "payment" = 1) ∧
    (countPayments
        (EthereumIndexer.processDirectPaymentEvent
          (EthereumIndexer.processDirectPaymentEvent
            ⟨[⟨"inv-2", "app-2", "100.00000000", "USDC", "pending", none, 0⟩], [], []⟩
            ⟨"inv-2", "0xpayer", "100.00000000", "USDC", "0xdead", 70, "0xbh", 1, "0", "0"⟩
            1 none 1)
          ⟨"inv-2", "0xpayer", "100.00000000", "USDC", "0xdead", 70, "0xbh", 1, "0", "0"⟩
          1 none 6)
        (EthereumIndexer.getChainName 1) "0xdead" = 1 ∧
      countTxRows
        (EthereumIndexer.processDirectPaymentEvent
          (EthereumIndexer.processDirectPaymentEvent
            ⟨[⟨"inv-2", "app-2", "100.00000000", "USDC", "pending", none, 0⟩], [], []⟩
            ⟨"inv-2", "0xpayer", "100.00000000", "USDC", "0xdead", 70, "0xbh", 1, "0", "0"⟩
            1 none 1)
          ⟨"inv-2", "0xpayer", "100.00000000", "USDC", "0xdead", 70, "0xbh", 1, "0", "0"⟩
          1 none 6)
        (EthereumIndexer.getChainName 1) "0xdead" "payment" = 1) :=
  ⟨payment_event_processing_idempotent.1 _ _ none none 1 6 (by decide) (by simp) (by simp),
   payment_event_processing_idempotent.2 _ _ 1 none none 1 6 (by decide) (by simp) (by simp)⟩

/-- C2 (amended): processing an event observed on one chain never
modifies or removes Payment/Transaction rows keyed to a different
chain — each processor only appends rows keyed to its own chain —
and the push-chain payment lookup is keyed by `(chain, txHash)`; the
Ethereum processors, however, deduplicate by `(invoiceId, txHash)`
with no chain component, so an event whose invoice and hash match an
existing row recorded on another chain is suppressed rather than
recorded independently. -/
theorem chain_isolation_amended :
    (∀ (db : DB) (e : PushChainIndexer.PaymentEvent) (receipt : Option Receipt)
        (now : Nat) (c : String), c ≠ PushChainIndexer.chainName →
        paymentsOn (PushChainIndexer.processPaymentEvent db e receipt now) c
            = paymentsOn db c ∧
        txRowsOn (PushChainIndexer.processPaymentEvent db e receipt now) c
            = txRowsOn db c) ∧
    (∀ (db : DB) (e : PushChainIndexer.WithdrawalEvent) (now : Nat) (c : String),
        c ≠ PushChainIndexer.chainName →
        paymentsOn (PushChainIndexer.processWithdrawalEvent db e now) c
            = paymentsOn db c ∧
        txRowsOn (PushChainIndexer.processWithdrawalEvent db e now) c
            = txRowsOn db c) ∧
    (∀ (db : DB) (e : PushChainIndexer.FeeEvent) (now : Nat) (c : String),
        c ≠ PushChainIndexer.chainName →
        paymentsOn (PushChainIndexer.processFeeEvent db e now) c = paymentsOn db c ∧
        txRowsOn (PushChainIndexer.processFeeEvent db e now) c = txRowsOn db c) ∧
    (∀ (db : DB) (e : EthereumIndexer.CrossChainPaymentEvent) (chainId : Nat)
        (receipt : Option Receipt) (now : Nat) (tag : String) (c : String),
        c ≠ EthereumIndexer.getChainName chainId →
        paymentsOn (EthereumIndexer.processEthPaymentEvent db e chainId receipt now tag) c
            = paymentsOn db c ∧
        txRowsOn (EthereumIndexer.processEthPaymentEvent db e chainId receipt now tag) c
            = txRowsOn db c) ∧
    (∀ (db : DB) (e : EthereumIndexer.CrossChainPaymentEvent) (chainId : Nat)
        (receipt : Option Receipt) (now : Nat) (tag : String) (inv : Invoice)
        (p : PaymentRow),
        db.invoices.find? (fun v => v.id == e.invoiceId) = some inv →
        db.payments.find? (fun q => q.invoiceId == e.invoiceId && q.txHash == e.txHash)
            = some p →
        EthereumIndexer.processEthPaymentEvent db e chainId receipt now tag = db) := by
  refine ⟨?_, ?_, ?_, ?_, ?_⟩
  · intro db e receipt now c hc
    cases hd : db.payments.find?
        (fun q => q.txHash == e.txHash && q.externalChain == PushChainIndexer.chainName) with
    | some p =>
      rw [PushChainIndexer.processPaymentEvent_already db e receipt now p hd]
      exact ⟨rfl, rfl⟩
    | none =>
      cases hi : db.invoices.find? (fun v => v.id == e.invoiceId) with
      | none =>
        rw [PushChainIndexer.processPaymentEvent_no_invoice db e receipt now hd hi]
        exact ⟨rfl, rfl⟩
      | some inv =>
        rw [PushChainIndexer.processPaymentEvent_shape db e receipt now inv hd hi]
        constructor
        · simp only [paymentsOn, List.filter_append, PushChainIndexer.paymentRowOf]
          simp
          exact fun h => hc h.symm
        · simp only [txRowsOn, List.filter_append, PushChainIndexer.paymentTxRowOf]
          simp
          exact fun h => hc h.symm
  · intro db e now c hc
    constructor
    · rfl
    · simp only [txRowsOn, PushChainIndexer.processWithdrawalEvent, List.filter_append]
      simp
      exact fun h => hc h.symm
  · intro db e now c hc
    constructor
    · rfl
    · simp only [txRowsOn, PushChainIndexer.processFeeEvent, List.filter_append]
      simp
      exact fun h => hc h.symm
  · intro db e chainId receipt now tag c hc
    cases hi : db.invoices.find? (fun v => v.id == e.invoiceId) with
    | none =>
      rw [EthereumIndexer.processEthPaymentEvent_no_invoice db e chainId receipt now tag hi]
      exact ⟨rfl, rfl⟩
    | some inv =>
      cases hd : db.payments.find?
          (fun q => q.invoiceId == e.invoiceId && q.txHash == e.txHash) with
      | some p =>
        rw [EthereumIndexer.processEthPaymentEvent_already db e chainId receipt now tag
              inv p hi hd]
        exact ⟨rfl, rfl⟩
      | none =>
        rw [EthereumIndexer.processEthPaymentEvent_shape db e chainId receipt now tag
              inv hi hd]
        constructor
        · simp [paymentsOn, List.filter_append, EthereumIndexer.ethPaymentRowOf, Ne.symm hc]
        · simp [txRowsOn, List.filter_append, EthereumIndexer.ethTxRowOf, Ne.symm hc]
  · intro db e chainId receipt now tag inv p hi hd
    exact EthereumIndexer.processEthPaymentEvent_already db e chainId receipt now tag
      inv p hi hd

/-- Witness for C2 (amended) at a concrete push-chain event and chain
`"ethereum"`. -/
theorem chain_isolation_amended_witness :
    paymentsOn
        (PushChainIndexer.processPaymentEvent
          ⟨[⟨"inv-9", "app-9", "100.00000000", "USDC", "pending", none, 0⟩], [], []⟩
          ⟨"inv-9", "0xpayer", "100.00000000", "USDC", "0xaaa", 5, "0xbh", "0", "0"⟩
          none 3)
        "ethereum"
      = paymentsOn
          ⟨[⟨"inv-9", "app-9", "100.00000000", "USDC", "pending", none, 0⟩], [], []⟩
          "ethereum" :=
  (chain_isolation_amended.1 _ _ none 3 "ethereum" (by decide)).1

/-- C2 counterexample: the same `(invoiceId, txHash)` pair observed by
the Ethereum indexer first on chain 1 (`ethereum`) and then on chain
137 (`polygon`) is recorded only once — the second event is
suppressed by the chain-free `(invoiceId, txHash)` lookup, so the two
records of the two chains are not independent, and the claim that the payment
idempotency lookup is keyed by chain id plus hash is false for this
processor. -/
theorem chain_isolation_counterexample :
    countPayments
        (EthereumIndexer.processDirectPaymentEvent
          (EthereumIndexer.processDirectPaymentEvent
            ⟨[⟨"inv-x", "app-x", "100.00000000", "USDC", "pending", none, 0⟩], [], []⟩
            ⟨"inv-x", "0xpayer", "100.00000000", "USDC", "0xcollide", 5, "0xbh", 1, "0", "0"⟩
            1 none 1)
          ⟨"inv-x", "0xpayer", "100.00000000", "USDC", "0xcollide", 9, "0xbh2", 137, "0", "0"⟩
          137 none 2)
        "ethereum" "0xcollide" = 1 ∧
    countPayments
        (EthereumIndexer.processDirectPaymentEvent
          (EthereumIndexer.processDirectPaymentEvent
            ⟨[⟨"inv-x", "app-x", "100.00000000", "USDC", "pending", none, 0⟩], [], []⟩
            ⟨"inv-x", "0xpayer", "100.00000000", "USDC", "0xcollide", 5, "0xbh", 1, "0", "0"⟩
            1 none 1)
          ⟨"inv-x", "0xpayer", "100.00000000", "USDC", "0xcollide", 9, "0xbh2", 137, "0", "0"⟩
          137 none 2)
        "polygon" "0xcollide" = 0 := by
  constructor
  · decide
  · decide

theorem EthereumIndexer.processEthPaymentEvent_invoices (db : DB)
    (e : EthereumIndexer.CrossChainPaymentEvent) (chainId : Nat)
    (receipt : Option Receipt) (now : Nat) (tag : String) :
    (EthereumIndexer.processEthPaymentEvent db e chainId receipt now tag).invoices
      = db.invoices := by
  cases hi : db.invoices.find? (fun v => v.id == e.invoiceId) with
  | none =>
    rw [EthereumIndexer.processEthPaymentEvent_no_invoice db e chainId receipt now tag hi]
  | some inv =>
    cases hd : db.payments.find?
        (fun q => q.invoiceId == e.invoiceId && q.txHash == e.txHash) with
    | some p =>
      rw [EthereumIndexer.processEthPaymentEvent_already db e chainId receipt now tag
            inv p hi hd]
    | none =>
      rw [EthereumIndexer.processEthPaymentEvent_shape db e chainId receipt now tag
            inv hi hd]

theorem find?_status_map_setPaid (l : List Invoice) (iid i : String) (now : Nat) :
    (((l.map (setPaid iid now)).find? (fun v => v.id == i)).map (fun v => v.status))
      = ((l.find? (fun v => v.id == i)).map
          (fun v => if v.id == iid then "paid" else v.status)) := by
  rw [find?_map_setPaid]
  cases h : l.find? (fun v => v.id == i) with
  | none => rfl
  | some v => simp [setPaid_status]

/-- C3 (amended): for a fresh PaymentReceived event on an existing
invoice, the push-chain processor always records the payment and
transitions the invoice to `paid` exactly when
`parseFloat(amount) ≥ parseFloat(invoice.amount)` holds on the
binary64 approximations — so a decimal-strictly-smaller payment whose
parsed value rounds up to the invoice value does transition it — and
the Ethereum direct-payment processor records the payment but never
changes invoice status at all. -/
theorem payment_threshold_amended :
    (∀ (db : DB) (e : PushChainIndexer.PaymentEvent) (receipt : Option Receipt)
        (now : Nat) (inv : Invoice),
        db.invoices.find? (fun v => v.id == e.invoiceId) = some inv →
        db.payments.find?
            (fun q => q.txHash == e.txHash && q.externalChain == PushChainIndexer.chainName)
          = none →
        (PushChainIndexer.processPaymentEvent db e receipt now).payments
            = db.payments ++ [PushChainIndexer.paymentRowOf e receipt now] ∧
        (jsGe e.amount inv.amount = false →
          (PushChainIndexer.processPaymentEvent db e receipt now).invoices = db.invoices) ∧
        (jsGe e.amount inv.amount = true →
          invoiceStatus (PushChainIndexer.processPaymentEvent db e receipt now) e.invoiceId
            = some "paid")) ∧
    (∀ (db : DB) (e : EthereumIndexer.CrossChainPaymentEvent) (chainId : Nat)
        (receipt : Option Receipt) (now : Nat) (inv : Invoice),
        db.invoices.find? (fun v => v.id == e.invoiceId) = some inv →
        db.payments.find? (fun q => q.invoiceId == e.invoiceId && q.txHash == e.txHash)
          = none →
        (EthereumIndexer.processDirectPaymentEvent db e chainId receipt now).payments
            = db.payments ++ [EthereumIndexer.ethPaymentRowOf e chainId receipt now "direct"] ∧
        (EthereumIndexer.processDirectPaymentEvent db e chainId receipt now).invoices
            = db.invoices) := by
  constructor
  · intro db e receipt now inv hfind hdedup
    have hid : (inv.id == e.invoiceId) = true := by
      have h2 := List.find?_some hfind
      exact h2
    rw [PushChainIndexer.processPaymentEvent_shape db e receipt now inv hdedup hfind]
    refine ⟨rfl, ?_, ?_⟩
    · intro hge
      simp [hge]
    · intro hge
      simp only [hge, if_true, invoiceStatus]
      rw [find?_status_map_setPaid, hfind]
      have hid2 : inv.id = e.invoiceId := by simpa using hid
      simp [hid2]
  · intro db e chainId receipt now inv hfind hdedup
    constructor
    · simp only [EthereumIndexer.processDirectPaymentEvent]
      rw [EthereumIndexer.processEthPaymentEvent_shape db e chainId receipt now _ inv
            hfind hdedup]
    · simp only [EthereumIndexer.processDirectPaymentEvent]
      exact EthereumIndexer.processEthPaymentEvent_invoices db e chainId receipt now "direct"

/-- Witness for C3 (amended): a 99.99999999 payment against a
100.00000000 invoice is recorded without a status change. -/
theorem payment_threshold_amended_witness :
    (PushChainIndexer.processPaymentEvent
        ⟨[⟨"inv-w3", "app-w3", "100.00000000", "USDC", "pending", none, 0⟩], [], []⟩
        ⟨"inv-w3", "0xpayer", "99.99999999", "USDC", "0xw3", 5, "0xbh", "0", "0"⟩
        none 4).invoices
      = [⟨"inv-w3", "app-w3", "100.00000000", "USDC", "pending", none, 0⟩] :=
  ((payment_threshold_amended.1
      ⟨[⟨"inv-w3", "app-w3", "100.00000000", "USDC", "pending", none, 0⟩], [], []⟩
      ⟨"inv-w3", "0xpayer", "99.99999999", "USDC", "0xw3", 5, "0xbh", "0", "0"⟩
      none 4 ⟨"inv-w3", "app-w3", "100.00000000", "USDC", "pending", none, 0⟩
      (by decide) (by decide)).2.1 (by decide))

/-- C3 counterexample: (i) on the Ethereum direct-payment path an
amount exactly equal to the invoice amount is recorded but the
invoice stays `pending` — the claimed transition to `paid` does not
happen; (ii) on the push-chain path a payment of
0.99999999999999999999 against an invoice of 1 — strictly less in
exact decimal — transitions the invoice to `paid`, because both
strings round to the same binary64 value. -/
theorem payment_threshold_counterexample :
    (invoiceStatus
        (EthereumIndexer.processDirectPaymentEvent
          ⟨[⟨"inv-e", "app-e", "100.00000000", "USDC", "pending", none, 0⟩], [], []⟩
          ⟨"inv-e", "0xpayer", "100.00000000", "USDC", "0xeq", 5, "0xbh", 1, "0", "0"⟩
          1 none 1)
        "inv-e" = some "pending" ∧
      countPayments
        (EthereumIndexer.processDirectPaymentEvent
          ⟨[⟨"inv-e", "app-e", "100.00000000", "USDC", "pending", none, 0⟩], [], []⟩
          ⟨"inv-e", "0xpayer", "100.00000000", "USDC", "0xeq", 5, "0xbh", 1, "0", "0"⟩
          1 none 1)
        "ethereum" "0xeq" = 1) ∧
    (invoiceStatus
        (PushChainIndexer.processPaymentEvent
          ⟨[⟨"inv-p", "app-p", "1", "USDC", "pending", none, 0⟩], [], []⟩
          ⟨"inv-p", "0xpayer", "0.99999999999999999999", "USDC", "0xlt", 5, "0xbh", "0", "0"⟩
          none 1)
        "inv-p" = some "paid" ∧
      Frac.lt (decVal "0.99999999999999999999") (decVal "1") = true) := by
  refine ⟨⟨?_, ?_⟩, ?_, ?_⟩ <;> decide

theorem applyOp_invoices (db : DB) (op : Op) :
    (applyOp db op).invoices = db.invoices ∨
    ∃ iid now, (applyOp db op).invoices = db.invoices.map (setPaid iid now) := by
  cases op with
  | pushPayment e receipt now =>
    simp only [applyOp]
    cases hd : db.payments.find?
        (fun q => q.txHash == e.txHash && q.externalChain == PushChainIndexer.chainName) with
    | some p =>
      left
      rw [PushChainIndexer.processPaymentEvent_already db e receipt now p hd]
    | none =>
      cases hi : db.invoices.find? (fun v => v.id == e.invoiceId) with
      | none =>
        left
        rw [PushChainIndexer.processPaymentEvent_no_invoice db e receipt now hd hi]
      | some inv =>
        rw [PushChainIndexer.processPaymentEvent_shape db e receipt now inv hd hi]
        by_cases hge : jsGe e.amount inv.amount
        · right
          exact ⟨e.invoiceId, now, by simp [hge]⟩
        · left
          simp [hge]
  | pushWithdrawal e now => left; rfl
  | pushFee e now => left; rfl
  | ethCrossChain e chainId receipt now =>
    left
    simp only [applyOp, EthereumIndexer.processCrossChainPaymentEvent]
    exact EthereumIndexer.processEthPaymentEvent_invoices db e chainId receipt now "cross-chain"
  | ethDirect e chainId receipt now =>
    left
    simp only [applyOp, EthereumIndexer.processDirectPaymentEvent]
    exact EthereumIndexer.processEthPaymentEvent_invoices db e chainId receipt now "direct"

theorem invoiceStatus_applyOp (db : DB) (op : Op) (i s : String)
    (h : invoiceStatus db i = some s) :
    invoiceStatus (applyOp db op) i = some s ∨
    invoiceStatus (applyOp db op) i = some "paid" := by
  rcases applyOp_invoices db op with heq | ⟨iid, now, heq⟩
  · left
    unfold invoiceStatus at h ⊢
    rw [heq]
    exact h
  · unfold invoiceStatus at h ⊢
    rw [heq, find?_status_map_setPaid]
    cases hf : db.invoices.find? (fun v => v.id == i) with
    | none => rw [hf] at h; exact absurd h (by simp)
    | some inv =>
      rw [hf] at h
      have h2 : inv.status = s := by simpa using h
      by_cases hideq : inv.id = iid
      · right
        simp [hideq]
      · left
        simp [hideq, h2]

/-- C4 (amended): invoice status is monotone under the indexing core
— a processing step either leaves the status of an invoice unchanged or
sets it to `paid`, so a `paid` invoice stays `paid` across every
sequence of processed events and the pending→paid status transition
happens at most once; the transition is triggered only by a
push-chain payment with `parseFloat(amount) ≥
parseFloat(invoice.amount)`, and the Ethereum processors never touch
invoices.  However the source applies the paid update without
checking the current status, so `paidAt` is overwritten by every
further qualifying payment rather than being set exactly once. -/
theorem invoice_paid_monotone_amended :
    (∀ (db : DB) (op : Op) (i s : String), invoiceStatus db i = some s →
        invoiceStatus (applyOp db op) i = some s ∨
        invoiceStatus (applyOp db op) i = some "paid") ∧
    (∀ (db : DB) (ops : List Op) (i : String), invoiceStatus db i = some "paid" →
        invoiceStatus (applyOps db ops) i = some "paid") ∧
    (∀ (db : DB) (e : PushChainIndexer.PaymentEvent) (receipt : Option Receipt)
        (now : Nat) (i : String),
        invoiceStatus (applyOp db (.pushPayment e receipt now)) i ≠ invoiceStatus db i →
        ∃ inv, db.invoices.find? (fun v => v.id == e.invoiceId) = some inv ∧
          jsGe e.amount inv.amount = true) ∧
    (∀ (db : DB) (e : EthereumIndexer.CrossChainPaymentEvent) (chainId : Nat)
        (receipt : Option Receipt) (now : Nat) (tag : String),
        (EthereumIndexer.processEthPaymentEvent db e chainId receipt now tag).invoices
          = db.invoices) := by
  refine ⟨invoiceStatus_applyOp, ?_, ?_, ?_⟩
  · intro db ops
    induction ops generalizing db with
    | nil => intro i h; exact h
    | cons op rest ih =>
      intro i h
      rcases invoiceStatus_applyOp db op i "paid" h with h1 | h1 <;>
        exact ih (applyOp db op) i h1
  · intro db e receipt now i hne
    simp only [applyOp] at hne
    cases hd : db.payments.find?
        (fun q => q.txHash == e.txHash && q.externalChain == PushChainIndexer.chainName) with
    | some p =>
      rw [PushChainIndexer.processPaymentEvent_already db e receipt now p hd] at hne
      exact absurd rfl hne
    | none =>
      cases hi : db.invoices.find? (fun v => v.id == e.invoiceId) with
      | none =>
        rw [PushChainIndexer.processPaymentEvent_no_invoice db e receipt now hd hi] at hne
        exact absurd rfl hne
      | some inv =>
        by_cases hge : jsGe e.amount inv.amount
        · exact ⟨inv, rfl, hge⟩
        · rw [PushChainIndexer.processPaymentEvent_shape db e receipt now inv hd hi] at hne
          apply absurd _ hne
          unfold invoiceStatus
          simp [hge]
  · intro db e chainId receipt now tag
    exact EthereumIndexer.processEthPaymentEvent_invoices db e chainId receipt now tag

/-- Witness for C4 (amended): a paid invoice stays paid across a
withdrawal and a fee observation. -/
theorem invoice_paid_monotone_amended_witness :
    invoiceStatus
        (applyOps ⟨[⟨"inv-m", "app-m", "50", "USDC", "paid", some 3, 3⟩], [], []⟩
          [.pushWithdrawal ⟨"app-m", "0xr", "10", "USDC", "0xw", 8, "0xbh"⟩ 9,
           .pushFee ⟨"app-m", "1", "2", "USDC", "0xf", 9, "0xbh2"⟩ 10])
        "inv-m" = some "paid" :=
  invoice_paid_monotone_amended.2.1 _ _ "inv-m" (by decide)

/-- C4 counterexample: two distinct-hash qualifying payments against
the same invoice each apply the paid update — the status check the
claim describes does not exist in the code — so `paidAt` moves from
`some 1` after the first payment to `some 2` after the second; it is
not set exactly once. -/
theorem invoice_paid_monotone_counterexample :
    invoicePaidAt
        (PushChainIndexer.processPaymentEvent
          ⟨[⟨"inv-c4", "app-c4", "100.00000000", "USDC", "pending", none, 0⟩], [], []⟩
          ⟨"inv-c4", "0xpayer", "100.00000000", "USDC", "0xh1", 5, "0xbh", "0", "0"⟩
          none 1)
        "inv-c4" = some (some 1) ∧
    invoicePaidAt
        (PushChainIndexer.processPaymentEvent
          (PushChainIndexer.processPaymentEvent
            ⟨[⟨"inv-c4", "app-c4", "100.00000000", "USDC", "pending", none, 0⟩], [], []⟩
            ⟨"inv-c4", "0xpayer", "100.00000000", "USDC", "0xh1", 5, "0xbh", "0", "0"⟩
            none 1)
          ⟨"inv-c4", "0xpayer", "100.00000000", "USDC", "0xh2", 6, "0xbh2", "0", "0"⟩
          none 2)
        "inv-c4" = some (some 2) := by
  constructor
  · decide
  · decide

/-- C7 (amended): processing a CrossChainPaymentInitiated event for an
existing invoice and a fresh `(invoiceId, txHash)` pair performs no
invoice status transition, and tags both inserted rows with
cross-chain metadata — but it does insert a Payment row with status
`confirmed` and a `payment`-type Transaction row, rather than
recording the event informationally only. -/
theorem cross_chain_initiated_amended :
    ∀ (db : DB) (e : EthereumIndexer.CrossChainPaymentEvent) (chainId : Nat)
      (receipt : Option Receipt) (now : Nat) (inv : Invoice),
      db.invoices.find? (fun v => v.id == e.invoiceId) = some inv →
      db.payments.find? (fun q => q.invoiceId == e.invoiceId && q.txHash == e.txHash)
        = none →
      (EthereumIndexer.processCrossChainPaymentEvent db e chainId receipt now).invoices
          = db.invoices ∧
      (EthereumIndexer.processCrossChainPaymentEvent db e chainId receipt now).payments
          = db.payments
            ++ [EthereumIndexer.ethPaymentRowOf e chainId receipt now "cross-chain"] ∧
      (EthereumIndexer.ethPaymentRowOf e chainId receipt now "cross-chain").status
          = "confirmed" ∧
      (EthereumIndexer.ethPaymentRowOf e chainId receipt now "cross-chain").metaType
          = some "cross-chain" ∧
      (EthereumIndexer.processCrossChainPaymentEvent db e chainId receipt now).transactions
          = db.transactions ++ [EthereumIndexer.ethTxRowOf e chainId inv now "cross-chain"] ∧
      (EthereumIndexer.ethTxRowOf e chainId inv now "cross-chain").type = "payment" := by
  intro db e chainId receipt now inv hfind hdedup
  simp only [EthereumIndexer.processCrossChainPaymentEvent]
  rw [EthereumIndexer.processEthPaymentEvent_shape db e chainId receipt now _ inv
        hfind hdedup]
  exact ⟨rfl, rfl, rfl, rfl, rfl, rfl⟩

/-- Witness for C7 (amended) at a concrete cross-chain event. -/
theorem cross_chain_initiated_amended_witness :
    (EthereumIndexer.processCrossChainPaymentEvent
        ⟨[⟨"inv-w7", "app-w7", "100.00000000", "USDC", "pending", none, 0⟩], [], []⟩
        ⟨"inv-w7", "0xpayer", "100.00000000", "USDC", "0xw7", 5, "0xbh", 1, "0", "0"⟩
        1 none 2).invoices
      = [⟨"inv-w7", "app-w7", "100.00000000", "USDC", "pending", none, 0⟩] :=
  (cross_chain_initiated_amended
      ⟨[⟨"inv-w7", "app-w7", "100.00000000", "USDC", "pending", none, 0⟩], [], []⟩
      ⟨"inv-w7", "0xpayer", "100.00000000", "USDC", "0xw7", 5, "0xbh", 1, "0", "0"⟩
      1 none 2 ⟨"inv-w7", "app-w7", "100.00000000", "USDC", "pending", none, 0⟩
      (by decide) (by decide)).1

/-- C7 counterexample: processing a CrossChainPaymentInitiated event
produces a Payment row with status `confirmed` for the hash of the event —
the claim that no confirmed Payment record is produced is false. -/
theorem cross_chain_initiated_counterexample :
    ((EthereumIndexer.processCrossChainPaymentEvent
        ⟨[⟨"inv-cc", "app-cc", "100.00000000", "USDC", "pending", none, 0⟩], [], []⟩
        ⟨"inv-cc", "0xpayer", "100.00000000", "USDC", "0xcc1", 5, "0xbh", 1, "0", "0"⟩
        1 none 1).payments.countP
      (fun p => p.status == "confirmed" && p.txHash == "0xcc1")) = 1 := by
  decide

/-- Rational value of a `Frac` (for relating the binary64 model to
exact arbitrary-precision arithmetic). -/
def toRat (a : Frac) : ℚ := mkRat a.num a.den

theorem toRat_le_iff (a b : Frac) (ha : 0 < a.den) (hb : 0 < b.den) :
    Frac.le a b = true ↔ toRat a ≤ toRat b := by
  have h : (Frac.le a b = true) ↔ (a.num * b.den ≤ b.num * a.den) := by
    simp [Frac.le]
  rw [h]
  unfold toRat
  rw [Rat.mkRat_eq_div, Rat.mkRat_eq_div,
    div_le_div_iff₀ (by exact_mod_cast ha) (by exact_mod_cast hb)]
  exact_mod_cast Iff.rfl

theorem toRat_add (a b : Frac) (ha : 0 < a.den) (hb : 0 < b.den) :
    toRat (Frac.add a b) = toRat a + toRat b := by
  have ha2 : ((a.den : ℚ)) ≠ 0 := by
    exact_mod_cast Nat.pos_iff_ne_zero.mp ha
  have hb2 : ((b.den : ℚ)) ≠ 0 := by
    exact_mod_cast Nat.pos_iff_ne_zero.mp hb
  unfold toRat Frac.add
  rw [Rat.mkRat_eq_div, Rat.mkRat_eq_div, Rat.mkRat_eq_div]
  push_cast
  field_simp

theorem jsFloat_den_pos (v : Frac) : 0 < (jsFloat v).den := by
  unfold jsFloat
  split_ifs <;> simp

theorem parseDec_den_pos (s : String) (x : Frac) (h : parseDec s = some x) :
    0 < x.den := by
  unfold parseDec at h
  cases hs : splitDot s.data with
  | mk intPart rest =>
    rw [hs] at h
    cases rest with
    | none =>
      cases intPart with
      | nil => simp at h
      | cons c cs =>
        dsimp only at h
        cases hd : digitsVal (c :: cs) 0 with
        | none => rw [hd] at h; simp at h
        | some n =>
          rw [hd] at h
          have hx : Frac.ofNat n = x := by simpa using h
          rw [show x = Frac.ofNat n from hx.symm]
          exact Nat.one_pos
    | some fracPart =>
      cases intPart with
      | nil => simp at h
      | cons c cs =>
        dsimp only at h
        cases hd1 : digitsVal (c :: cs) 0 with
        | none => rw [hd1] at h; simp at h
        | some ip =>
          cases hd2 : digitsVal fracPart 0 with
          | none => rw [hd1, hd2] at h; simp at h
          | some fp =>
            rw [hd1, hd2] at h
            dsimp only at h
            by_cases hc : fracPart.contains '.' = true
            · rw [if_pos hc] at h
              simp at h
            · rw [if_neg hc] at h
              have h2 : Frac.mk (ip * 10 ^ fracPart.length + fp) (10 ^ fracPart.length) = x :=
                Option.some.inj h
              rw [show x = Frac.mk (ip * 10 ^ fracPart.length + fp) (10 ^ fracPart.length)
                    from h2.symm]
              exact pow_pos (by norm_num) _

/-- C8 (amended): the paid-transition comparison and the fee total
are computed on binary64 (`parseFloat`) approximations; they agree
with exact arbitrary-precision decimal arithmetic exactly when the
parsed values (and, for the fee, the intermediate binary64 sum) are
unchanged by binary64 rounding — which holds for small amounts but
fails in general on 18-decimal token amounts. -/
theorem decimal_arithmetic_amended :
    (∀ (a b : String) (x y : Frac),
        parseDec a = some x → parseDec b = some y →
        toRat (jsFloat x) = toRat x → toRat (jsFloat y) = toRat y →
        (jsGe a b = true ↔ toRat y ≤ toRat x)) ∧
    (∀ (p n : String) (x y : Frac),
        parseDec p = some x → parseDec n = some y →
        toRat (jsFloat x) = toRat x → toRat (jsFloat y) = toRat y →
        toRat (jsFloat (Frac.add (jsFloat x) (jsFloat y)))
          = toRat (Frac.add (jsFloat x) (jsFloat y)) →
        toRat (feeTotal p n) = toRat x + toRat y) := by
  constructor
  · intro a b x y hx hy hfx hfy
    unfold jsGe
    rw [hx, hy]
    rw [toRat_le_iff (jsFloat y) (jsFloat x) (jsFloat_den_pos y) (jsFloat_den_pos x)]
    rw [hfx, hfy]
  · intro p n x y hx hy hfx hfy hfs
    unfold feeTotal
    rw [hx, hy]
    rw [hfs, toRat_add (jsFloat x) (jsFloat y) (jsFloat_den_pos x) (jsFloat_den_pos y),
      hfx, hfy]

/-- Witness for C8 (amended): the amounts 2 and 1 are binary64-exact,
so the float comparison and the float fee total agree with the exact
values there. -/
theorem decimal_arithmetic_amended_witness :
    (jsGe "2" "1" = true ↔ toRat ⟨1, 1⟩ ≤ toRat ⟨2, 1⟩) ∧
    toRat (feeTotal "2" "1") = toRat ⟨2, 1⟩ + toRat ⟨1, 1⟩ :=
  ⟨decimal_arithmetic_amended.1 "2" "1" ⟨2, 1⟩ ⟨1, 1⟩ (by decide) (by decide)
      (by decide) (by decide),
   decimal_arithmetic_amended.2 "2" "1" ⟨2, 1⟩ ⟨1, 1⟩ (by decide) (by decide)
      (by decide) (by decide) (by decide)⟩

/-- C8 counterexample: the comparison deciding the paid transition
accepts 0.99999999999999999999 as ≥ 1 (both round to the binary64
value 1), although the exact decimal values are strictly ordered the
other way; and the fee total of 10000000000000000001 and 1 is
10000000000000000000, not the exact sum 10000000000000000002. -/
theorem decimal_arithmetic_counterexample :
    (jsGe "0.99999999999999999999" "1" = true ∧
      parseDec "0.99999999999999999999"
        = some ⟨99999999999999999999, 100000000000000000000⟩ ∧
      parseDec "1" = some ⟨1, 1⟩ ∧
      toRat ⟨99999999999999999999, 100000000000000000000⟩ < toRat ⟨1, 1⟩) ∧
    (toRat (feeTotal "10000000000000000001" "1") = toRat ⟨10000000000000000000, 1⟩ ∧
      toRat (Frac.add ⟨10000000000000000001, 1⟩ ⟨1, 1⟩)
        = toRat ⟨10000000000000000002, 1⟩ ∧
      toRat (feeTotal "10000000000000000001" "1") ≠ toRat ⟨10000000000000000002, 1⟩) := by
  refine ⟨⟨?_, ?_, ?_, ?_⟩, ?_, ?_, ?_⟩ <;> decide
